import Mathlib

/-!
# Verification of pariksha's helper.go

A shallow embedding of the pure logic of `helper.go` from the
`DevNavix/pariksha` repository, together with proofs of the behavioural
properties stated in the repository's specification.

The embedding covers three areas of the source file:

* the UUID / BinData conversion helpers `GetBsonIdFromUUId` and
  `GetStringUUidFromBsonId`, translated byte for byte together with the
  Go standard-library routines they call (`encoding/hex` decoding,
  `encoding/base64` standard encoding and decoding, `strings` trimming);
* the profiling pipeline (`RunProfiling`, `WriteProfileAndExport`,
  `GenerateGraph`), modelled as a function from an environment of
  outcomes of the external effects (temp-file creation, `pprof` calls,
  subprocess invocation, file writes) to the list of observable events the
  Go code performs, in program order;
* the assertion runner `RunSingle` and the directory helper
  `MakeDirIfNotExists`, the latter against a small filesystem model.

Machine integers do not overflow in any of the modelled code paths
(bytes stay below 256 by construction), so bytes are plain `Nat`s.
-/

set_option maxHeartbeats 1000000

namespace Pariksha

/-! ## Go standard library: encoding/hex

`hex.DecodeString` accepts the digits `0-9`, `a-f` and `A-F`, requires an
even number of digits, and fails otherwise. -/

/-- Value of one hexadecimal digit, exactly the character classes accepted
by Go's `encoding/hex` package. -/
def hexDigitVal (c : Char) : Option Nat :=
  if '0' ≤ c ∧ c ≤ '9' then some (c.toNat - '0'.toNat)
  else if 'a' ≤ c ∧ c ≤ 'f' then some (c.toNat - 'a'.toNat + 10)
  else if 'A' ≤ c ∧ c ≤ 'F' then some (c.toNat - 'A'.toNat + 10)
  else none

/-- Go `hex.DecodeString` on a list of characters: consume two digits per
output byte; any non-digit or an odd number of digits is an error. -/
def hexDecodeList : List Char → Option (List Nat)
  | [] => some []
  | [_] => none
  | a :: b :: rest =>
    match hexDigitVal a, hexDigitVal b, hexDecodeList rest with
    | some ha, some hb, some t => some ((ha * 16 + hb) :: t)
    | _, _, _ => none

/-- The sixteen lower-case hexadecimal digit characters, in value order. -/
def lowerHexChars : List Char := "0123456789abcdef".data

/-- Lower-case hexadecimal digit for a value below 16 (the digits Go's
`fmt` verb `%x` emits). -/
def hexLowerChar (n : Nat) : Char := lowerHexChars.getD n '0'

/-- Go `%x` applied to a byte slice: two lower-case digits per byte. -/
def hexEncodeList (bs : List Nat) : List Char :=
  (bs.map (fun b => [hexLowerChar (b / 16), hexLowerChar (b % 16)])).flatten

/-! ## Go standard library: encoding/base64 (StdEncoding)

`base64.StdEncoding` uses the standard alphabet with `=` padding.  Its
decoder ignores carriage returns and newlines, requires the remaining
length to be a multiple of four, and accepts `=` padding only at the end
of the input. -/

/-- The standard base64 alphabet. -/
def base64Alphabet : List Char :=
  "ABCDEFGHIJKLMNOPQRSTUVWXYZabcdefghijklmnopqrstuvwxyz0123456789+/".data

/-- Character for a 6-bit group. -/
def b64Char (n : Nat) : Char := base64Alphabet.getD n 'A'

def b64IndexAux : List Char → Nat → Char → Option Nat
  | [], _, _ => none
  | a :: rest, i, c => if a = c then some i else b64IndexAux rest (i + 1) c

/-- Position of a character in the standard base64 alphabet, `none` for
characters outside it (in particular for `=`). -/
def b64Index (c : Char) : Option Nat := b64IndexAux base64Alphabet 0 c

/-- Go `base64.StdEncoding.EncodeToString` on a byte list: three bytes per
four characters, with `=` padding on a final group of one or two bytes. -/
def base64Encode : List Nat → List Char
  | [] => []
  | [a] => [b64Char (a / 4), b64Char (a % 4 * 16), '=', '=']
  | [a, b] => [b64Char (a / 4), b64Char (a % 4 * 16 + b / 16), b64Char (b % 16 * 4), '=']
  | a :: b :: c :: rest =>
    b64Char (a / 4) :: b64Char (a % 4 * 16 + b / 16) ::
    b64Char (b % 16 * 4 + c / 64) :: b64Char (c % 64) :: base64Encode rest

/-- Decoding of newline-free base64 text in groups of four characters.
Padding is legal only in the last group, and only in the final one or two
positions; `b64Index` returning `none` on `=` makes a misplaced padding
character an error, exactly as in Go's decoder. -/
def base64DecodeQuads : List Char → Option (List Nat)
  | [] => some []
  | a :: b :: c :: d :: rest =>
    if rest = [] ∧ c = '=' ∧ d = '=' then
      match b64Index a, b64Index b with
      | some va, some vb => some [va * 4 + vb / 16]
      | _, _ => none
    else if rest = [] ∧ d = '=' then
      match b64Index a, b64Index b, b64Index c with
      | some va, some vb, some vc => some [va * 4 + vb / 16, vb % 16 * 16 + vc / 4]
      | _, _, _ => none
    else
      match b64Index a, b64Index b, b64Index c, b64Index d, base64DecodeQuads rest with
      | some va, some vb, some vc, some vd, some t =>
        some ((va * 4 + vb / 16) :: (vb % 16 * 16 + vc / 4) :: (vc % 4 * 64 + vd) :: t)
      | _, _, _, _, _ => none
  | _ => none

/-- Go `base64.StdEncoding.DecodeString`: carriage returns and newlines
are ignored, then the input is decoded in groups of four. -/
def base64DecodeGo (cs : List Char) : Option (List Nat) :=
  base64DecodeQuads (cs.filter (fun c => c != '\r' && c != '\n'))

/-! ## Go standard library: strings trimming -/

/-- Go `strings.TrimPrefix`: drop `p` from the front when it is a prefix,
otherwise return the input unchanged. -/
def goTrimPre (s p : List Char) : List Char :=
  if p.isPrefixOf s then s.drop p.length else s

/-- Go `strings.TrimSuffix`: drop `p` from the back when it is a suffix,
otherwise return the input unchanged. -/
def goTrimSuf (s p : List Char) : List Char :=
  if p.isSuffixOf s then s.take (s.length - p.length) else s

/-! ## helper.go: GetBsonIdFromUUId / GetStringUUidFromBsonId -/

/-- `GetBsonIdFromUUId` from `helper.go`: strip every dash
(`strings.ReplaceAll(uuidStr, "-", "")`), hex-decode, and on success wrap
the base64 encoding of the bytes as `BinData(0, '…')`.  A hex-decoding
error is swallowed: the function returns the empty string and the caller
receives no error value. -/
def GetBsonIdFromUUId (uuidStr : String) : String :=
  let hexChars := uuidStr.data.filter (fun c => c != '-')
  match hexDecodeList hexChars with
  | none => ""
  | some uuidBytes => "BinData(0, '" ++ String.mk (base64Encode uuidBytes) ++ "')"

/-- The wrapper text in front of the payload. -/
def binDataPre : List Char := "BinData(0, '".data

/-- The wrapper text behind the payload. -/
def binDataSuf : List Char := "')".data

/-- Left-pad with `0` up to a field width, as Go's `%08x`-style verbs do.
In every call the content already has the full width, so this is the
identity there. -/
def padZeros (w : Nat) (cs : List Char) : List Char :=
  List.replicate (w - cs.length) '0' ++ cs

/-- `fmt.Sprintf` hex verb with zero padding applied to a byte slice. -/
def sprintfHex (w : Nat) (bs : List Nat) : List Char := padZeros w (hexEncodeList bs)

/-- The `"%08x-%04x-%04x-%04x-%012x"` formatting of the 16 decoded bytes
in `GetStringUUidFromBsonId`, applied to the Go slices `b[0:4]`, `b[4:6]`,
`b[6:8]`, `b[8:10]`, `b[10:16]`. -/
def formatUUIDFromBytes (bs : List Nat) : String :=
  String.mk (sprintfHex 8 (bs.take 4) ++
    '-' :: (sprintfHex 4 ((bs.drop 4).take 2) ++
    '-' :: (sprintfHex 4 ((bs.drop 6).take 2) ++
    '-' :: (sprintfHex 4 ((bs.drop 8).take 2) ++
    '-' :: sprintfHex 12 (bs.drop 10)))))

/-- `GetStringUUidFromBsonId` from `helper.go`.  The Go function uses
named results `(uuidStr string, err error)` that start out as `""` and
`nil`; we return the pair `(uuidStr, err)` with the error as an optional
message.  The wrapper check, the trimming, the base64 decoding and the
length check mirror the source line by line. -/
def GetStringUUidFromBsonId (binData : String) : String × Option String :=
  if binDataPre.isPrefixOf binData.data = false ∨
      binDataSuf.isSuffixOf binData.data = false then
    ("", some "invalid BinData format")
  else
    let base64Str := goTrimSuf (goTrimPre binData.data binDataPre) binDataSuf
    match base64DecodeGo base64Str with
    | none => ("", some "illegal base64 data")
    | some uuidBytes =>
      if uuidBytes.length ≠ 16 then ("", some "invalid UUID byte length")
      else (formatUUIDFromBytes uuidBytes, none)

/-! ## Laws of the hexadecimal layer -/

theorem hexEncodeList_cons (x : Nat) (bs : List Nat) :
    hexEncodeList (x :: bs) =
      hexLowerChar (x / 16) :: hexLowerChar (x % 16) :: hexEncodeList bs := rfl

theorem hexEncodeList_append (l1 l2 : List Nat) :
    hexEncodeList (l1 ++ l2) = hexEncodeList l1 ++ hexEncodeList l2 := by
  simp [hexEncodeList]

/-- `hex.DecodeString` fails exactly on odd length or a non-hex character. -/
theorem hexDecodeList_eq_none_iff : ∀ cs : List Char,
    hexDecodeList cs = none ↔ cs.length % 2 = 1 ∨ ∃ c ∈ cs, hexDigitVal c = none
  | [] => by simp [hexDecodeList]
  | [c] => by simp [hexDecodeList]
  | a :: b :: rest => by
    have ih := hexDecodeList_eq_none_iff rest
    constructor
    · intro h
      rcases ha : hexDigitVal a with _ | va
      · exact Or.inr ⟨a, by simp, ha⟩
      rcases hb : hexDigitVal b with _ | vb
      · exact Or.inr ⟨b, by simp, hb⟩
      rcases hr : hexDecodeList rest with _ | t
      · rcases ih.mp hr with h1 | ⟨c, hc, hcv⟩
        · left
          simp only [List.length_cons]
          omega
        · exact Or.inr ⟨c, by simp [hc], hcv⟩
      · simp [hexDecodeList, ha, hb, hr] at h
    · intro h
      rcases h with h1 | ⟨c, hc, hcv⟩
      · have hrest : hexDecodeList rest = none := by
          refine ih.mpr (Or.inl ?_)
          simp only [List.length_cons] at h1
          omega
        simp only [hexDecodeList, hrest]
        rcases hexDigitVal a with _ | va <;> rcases hexDigitVal b with _ | vb <;> rfl
      · simp only [List.mem_cons] at hc
        rcases hc with hc | hc | hc

        · subst hc
          rcases hb : hexDigitVal b with _ | vb <;>
            rcases hr : hexDecodeList rest with _ | t <;>
              simp [hexDecodeList, hcv, hb, hr]
        · subst hc
          rcases ha : hexDigitVal a with _ | va <;>
            rcases hr : hexDecodeList rest with _ | t <;>
              simp [hexDecodeList, hcv, ha, hr]
        · have hrest : hexDecodeList rest = none := ih.mpr (Or.inr ⟨c, hc, hcv⟩)
          rcases ha : hexDigitVal a with _ | va <;>
            rcases hb : hexDigitVal b with _ | vb <;>
              simp [hexDecodeList, hrest, ha, hb]

/-- Decidable bundling of the digit round trip, for evaluation over the
sixteen lower-case digits. -/
def hexRoundOk (c : Char) : Bool :=
  match hexDigitVal c with
  | none => false
  | some v => decide (v < 16) && (hexLowerChar v == c)

theorem hexRoundOk_all : ∀ c ∈ lowerHexChars, hexRoundOk c = true := by decide

theorem hexRoundOk_spec (c : Char) (h : hexRoundOk c = true) :
    ∃ v, hexDigitVal c = some v ∧ v < 16 ∧ hexLowerChar v = c := by
  unfold hexRoundOk at h
  rcases hv : hexDigitVal c with _ | v
  · rw [hv] at h
    cases h
  · rw [hv] at h
    simp only [Bool.and_eq_true, decide_eq_true_eq, beq_iff_eq] at h
    exact ⟨v, rfl, h.1, h.2⟩

theorem lowerHex_digit (c : Char) (hc : c ∈ lowerHexChars) :
    ∃ v, hexDigitVal c = some v ∧ v < 16 ∧ hexLowerChar v = c :=
  hexRoundOk_spec c (hexRoundOk_all c hc)

/-- Decoding a list of lower-case hex digits of even length succeeds, and
re-encoding the bytes gives back the digits. -/
theorem hexDecode_encode : ∀ cs : List Char,
    (∀ c ∈ cs, c ∈ lowerHexChars) → cs.length % 2 = 0 →
    ∃ bs, hexDecodeList cs = some bs ∧ hexEncodeList bs = cs ∧
      2 * bs.length = cs.length ∧ ∀ b ∈ bs, b < 256
  | [], _, _ => ⟨[], rfl, rfl, rfl, by simp⟩
  | [c], _, hlen => by simp at hlen
  | a :: b :: rest, hmem, hlen => by
    obtain ⟨va, hva, hva16, hvac⟩ := lowerHex_digit a (hmem a (by simp))
    obtain ⟨vb, hvb, hvb16, hvbc⟩ := lowerHex_digit b (hmem b (by simp))
    obtain ⟨bs, h1, h2, h3, h4⟩ := hexDecode_encode rest
      (fun c hc => hmem c (by simp [hc]))
      (by simp only [List.length_cons] at hlen; omega)
    refine ⟨(va * 16 + vb) :: bs, ?_, ?_, ?_, ?_⟩
    · simp [hexDecodeList, hva, hvb, h1]
    · rw [hexEncodeList_cons]
      have e1 : (va * 16 + vb) / 16 = va := by omega
      have e2 : (va * 16 + vb) % 16 = vb := by omega
      rw [e1, e2, hvac, hvbc, h2]
    · simp only [List.length_cons]
      omega
    · intro x hx
      rcases List.mem_cons.mp hx with h | h
      · omega
      · exact h4 x h

/-! ## Claim C10 -/

/-- C10 — `GetBsonIdFromUUId` swallows decoding errors and never checks
the byte length.  On any input whose dash-free form is not valid
hexadecimal (odd number of digits or a non-hex character, first
conjunct's characterisation) the function returns the empty string; its Go
signature has no error result, so the caller gets no error indication
(the Lean return type `String` mirrors this).  On any even-length hex
string — of any length, not only 32 digits — the bytes are accepted and
encoded as a `BinData` wrapper. -/
theorem c10_encode_error_swallowed (s : String) :
    (hexDecodeList (s.data.filter (fun c => c != '-')) = none ↔
      (s.data.filter (fun c => c != '-')).length % 2 = 1 ∨
      ∃ c ∈ s.data.filter (fun c => c != '-'), hexDigitVal c = none) ∧
    (hexDecodeList (s.data.filter (fun c => c != '-')) = none →
      GetBsonIdFromUUId s = "") ∧
    ∀ bs, hexDecodeList (s.data.filter (fun c => c != '-')) = some bs →
      GetBsonIdFromUUId s = "BinData(0, '" ++ String.mk (base64Encode bs) ++ "')" := by
  refine ⟨hexDecodeList_eq_none_iff _, fun h => ?_, fun bs h => ?_⟩
  · simp [GetBsonIdFromUUId, h]
  · simp [GetBsonIdFromUUId, h]

theorem c10_encode_error_swallowed_witness :
    GetBsonIdFromUUId "0z" = "" ∧
    GetBsonIdFromUUId "0-0" = "BinData(0, '" ++ String.mk (base64Encode [0]) ++ "')" :=
  ⟨(c10_encode_error_swallowed "0z").2.1 (by decide),
   (c10_encode_error_swallowed "0-0").2.2 [0] (by decide)⟩

/-! ## Claim C7 -/

/-- C7 — `GetStringUUidFromBsonId` fails exactly when the wrapper is
missing, the payload is not valid base64, or the payload decodes to a
byte count other than 16; and whenever it fails the returned UUID string
is empty. -/
theorem c7_decode_error_conditions (s : String) :
    ((GetStringUUidFromBsonId s).2.isSome = true ↔
      binDataPre.isPrefixOf s.data = false ∨
      binDataSuf.isSuffixOf s.data = false ∨
      base64DecodeGo (goTrimSuf (goTrimPre s.data binDataPre) binDataSuf) = none ∨
      ∃ bs, base64DecodeGo (goTrimSuf (goTrimPre s.data binDataPre) binDataSuf) = some bs ∧
        bs.length ≠ 16) ∧
    ((GetStringUUidFromBsonId s).2.isSome = true → (GetStringUUidFromBsonId s).1 = "") := by
  unfold GetStringUUidFromBsonId
  rcases hp : binDataPre.isPrefixOf s.data with _ | _
  · simp [hp]
  rcases hs : binDataSuf.isSuffixOf s.data with _ | _
  · simp [hp, hs]
  rcases hdec : base64DecodeGo (goTrimSuf (goTrimPre s.data binDataPre) binDataSuf)
      with _ | bs
  · simp [hp, hs, hdec]
  by_cases hlen : bs.length = 16
  · simp [hp, hs, hdec, hlen]
  · simp [hp, hs, hdec, hlen]

theorem c7_decode_error_conditions_witness :
    (GetStringUUidFromBsonId "nope").2.isSome = true ∧
    (GetStringUUidFromBsonId "nope").1 = "" :=
  ⟨(c7_decode_error_conditions "nope").1.mpr (Or.inl (by decide)),
   (c7_decode_error_conditions "nope").2
     ((c7_decode_error_conditions "nope").1.mpr (Or.inl (by decide)))⟩

/-! ## Laws of the base64 layer -/

theorem b64Index_b64Char : ∀ n : Fin 64, b64Index (b64Char n.val) = some n.val := by decide

theorem b64Index_lt (n : Nat) (h : n < 64) : b64Index (b64Char n) = some n :=
  b64Index_b64Char ⟨n, h⟩

theorem b64Char_props : ∀ n : Fin 64,
    b64Char n.val ≠ '=' ∧ b64Char n.val ≠ '\r' ∧ b64Char n.val ≠ '\n' := by decide

/-- Every character emitted by the encoder is a padding `=` or an
alphabet character for a 6-bit value. -/
theorem base64Encode_mem : ∀ bs : List Nat, (∀ b ∈ bs, b < 256) →
    ∀ c ∈ base64Encode bs, c = '=' ∨ ∃ n, n < 64 ∧ c = b64Char n
  | [], _, c, hc => by simp [base64Encode] at hc
  | [a], h, c, hc => by
    have ha : a < 256 := h a (by simp)
    simp only [base64Encode, List.mem_cons, List.not_mem_nil, or_false] at hc
    rcases hc with hc | hc | hc | hc
    · exact Or.inr ⟨a / 4, by omega, hc⟩
    · exact Or.inr ⟨a % 4 * 16, by omega, hc⟩
    · exact Or.inl hc
    · exact Or.inl hc
  | [a, b], h, c, hc => by
    have ha : a < 256 := h a (by simp)
    have hb : b < 256 := h b (by simp)
    simp only [base64Encode, List.mem_cons, List.not_mem_nil, or_false] at hc
    rcases hc with hc | hc | hc | hc
    · exact Or.inr ⟨a / 4, by omega, hc⟩
    · exact Or.inr ⟨a % 4 * 16 + b / 16, by omega, hc⟩
    · exact Or.inr ⟨b % 16 * 4, by omega, hc⟩
    · exact Or.inl hc
  | a :: b :: c :: rest, h, x, hx => by
    have ha : a < 256 := h a (by simp)
    have hb : b < 256 := h b (by simp)
    have hc : c < 256 := h c (by simp)
    simp only [base64Encode, List.mem_cons] at hx
    rcases hx with hx | hx | hx | hx | hx
    · exact Or.inr ⟨a / 4, by omega, hx⟩
    · exact Or.inr ⟨a % 4 * 16 + b / 16, by omega, hx⟩
    · exact Or.inr ⟨b % 16 * 4 + c / 64, by omega, hx⟩
    · exact Or.inr ⟨c % 64, by omega, hx⟩
    · exact base64Encode_mem rest (fun y hy => h y (by simp [hy])) x hx

/-- The encoder never emits a carriage return or newline, so the
decoder's newline filtering is the identity on encoder output. -/
theorem base64Encode_filter_newlines (bs : List Nat) (h : ∀ b ∈ bs, b < 256) :
    (base64Encode bs).filter (fun c => c != '\r' && c != '\n') = base64Encode bs := by
  apply List.filter_eq_self.mpr
  intro c hc
  rcases base64Encode_mem bs h c hc with hc' | ⟨n, hn, hc'⟩
  · subst hc'
    decide
  · subst hc'
    have hp := b64Char_props ⟨n, hn⟩
    simp only [Bool.and_eq_true, bne_iff_ne, ne_eq]
    exact ⟨hp.2.1, hp.2.2⟩

/-- Standard base64: decoding the encoding of any byte list returns the
bytes. -/
theorem base64DecodeQuads_encode : ∀ bs : List Nat, (∀ b ∈ bs, b < 256) →
    base64DecodeQuads (base64Encode bs) = some bs
  | [], _ => rfl
  | [a], h => by
    have ha : a < 256 := h a (by simp)
    have h1 : b64Index (b64Char (a / 4)) = some (a / 4) := b64Index_lt _ (by omega)
    have h2 : b64Index (b64Char (a % 4 * 16)) = some (a % 4 * 16) := b64Index_lt _ (by omega)
    simp only [base64Encode, base64DecodeQuads]
    rw [if_pos (by simp), h1, h2]
    simp only [Option.some.injEq, List.cons.injEq, and_true]
    omega
  | [a, b], h => by
    have ha : a < 256 := h a (by simp)
    have hb : b < 256 := h b (by simp)
    have h1 : b64Index (b64Char (a / 4)) = some (a / 4) := b64Index_lt _ (by omega)
    have h2 : b64Index (b64Char (a % 4 * 16 + b / 16)) = some (a % 4 * 16 + b / 16) :=
      b64Index_lt _ (by omega)
    have h3 : b64Index (b64Char (b % 16 * 4)) = some (b % 16 * 4) := b64Index_lt _ (by omega)
    have hy : b64Char (b % 16 * 4) ≠ '=' := (b64Char_props ⟨b % 16 * 4, by omega⟩).1
    simp only [base64Encode, base64DecodeQuads]
    rw [if_neg (by simp [hy]), if_pos (by simp), h1, h2, h3]
    simp only [Option.some.injEq, List.cons.injEq, and_true]
    omega
  | a :: b :: c :: rest, h => by
    have ha : a < 256 := h a (by simp)
    have hb : b < 256 := h b (by simp)
    have hc : c < 256 := h c (by simp)
    have ih := base64DecodeQuads_encode rest (fun y hy => h y (by simp [hy]))
    have h1 : b64Index (b64Char (a / 4)) = some (a / 4) := b64Index_lt _ (by omega)
    have h2 : b64Index (b64Char (a % 4 * 16 + b / 16)) = some (a % 4 * 16 + b / 16) :=
      b64Index_lt _ (by omega)
    have h3 : b64Index (b64Char (b % 16 * 4 + c / 64)) = some (b % 16 * 4 + c / 64) :=
      b64Index_lt _ (by omega)
    have h4 : b64Index (b64Char (c % 64)) = some (c % 64) := b64Index_lt _ (by omega)
    have hz : b64Char (c % 64) ≠ '=' := (b64Char_props ⟨c % 64, by omega⟩).1
    simp only [base64Encode, base64DecodeQuads]
    rw [if_neg (by simp [hz]), if_neg (by simp [hz]), h1, h2, h3, h4, ih]
    simp only [Option.some.injEq, List.cons.injEq, and_true]
    exact ⟨by omega, by omega, by omega⟩

theorem base64DecodeGo_encode (bs : List Nat) (h : ∀ b ∈ bs, b < 256) :
    base64DecodeGo (base64Encode bs) = some bs := by
  unfold base64DecodeGo
  rw [base64Encode_filter_newlines bs h]
  exact base64DecodeQuads_encode bs h

/-! ## Laws of the trimming layer -/

theorem isPrefixOf_append_self : ∀ l t : List Char, l.isPrefixOf (l ++ t) = true
  | [], _ => by simp [List.isPrefixOf]
  | a :: as, t => by simp [List.isPrefixOf, isPrefixOf_append_self as t]

theorem isSuffixOf_append_self (l t : List Char) : l.isSuffixOf (t ++ l) = true := by
  unfold List.isSuffixOf
  rw [List.reverse_append]
  exact isPrefixOf_append_self _ _

theorem goTrimPre_append (p t : List Char) : goTrimPre (p ++ t) p = t := by
  unfold goTrimPre
  rw [isPrefixOf_append_self]
  simp [List.drop_left]

theorem goTrimSuf_append (t p : List Char) : goTrimSuf (t ++ p) p = t := by
  unfold goTrimSuf
  rw [isSuffixOf_append_self]
  simp [List.length_append, Nat.add_sub_cancel, List.take_left]

/-! ## Reassembling the UUID text -/

theorem hexEncodeList_length (bs : List Nat) : (hexEncodeList bs).length = 2 * bs.length := by
  induction bs with
  | nil => rfl
  | cons x bs ih =>
    rw [hexEncodeList_cons]
    simp only [List.length_cons, ih]
    omega

/-- Splitting a hex encoding at an even boundary splits the byte list. -/
theorem hexEncode_split : ∀ (bs : List Nat) (g rest : List Char),
    hexEncodeList bs = g ++ rest → g.length % 2 = 0 →
    ∃ b1 b2, bs = b1 ++ b2 ∧ hexEncodeList b1 = g ∧ hexEncodeList b2 = rest ∧
      2 * b1.length = g.length
  | bs, [], rest, h, _ => ⟨[], bs, rfl, rfl, h, rfl⟩
  | [], e1 :: g', rest, h, _ => by simp [hexEncodeList] at h
  | x :: bs', e1 :: g', rest, h, hg => by
    rcases g' with _ | ⟨e2, g''⟩
    · simp at hg
    · rw [hexEncodeList_cons] at h
      have h1 : hexLowerChar (x / 16) = e1 := (List.cons.inj h).1
      have h2 : hexLowerChar (x % 16) = e2 := (List.cons.inj (List.cons.inj h).2).1
      have h3 : hexEncodeList bs' = g'' ++ rest := (List.cons.inj (List.cons.inj h).2).2
      obtain ⟨b1, b2, hb, he1, he2, hlen⟩ := hexEncode_split bs' g'' rest h3
        (by simp only [List.length_cons] at hg; omega)
      refine ⟨x :: b1, b2, by rw [hb]; rfl, ?_, he2, ?_⟩
      · rw [hexEncodeList_cons, h1, h2, he1]
      · simp only [List.length_cons]
        omega

/-- The Sprintf in `GetStringUUidFromBsonId`, applied to bytes grouped
4-2-2-2-6, concatenates the groups' hex encodings with dashes. -/
theorem formatUUID_of_groups (d1 d2 d3 d4 d5 : List Nat)
    (h1 : d1.length = 4) (h2 : d2.length = 2) (h3 : d3.length = 2)
    (h4 : d4.length = 2) (h5 : d5.length = 6) :
    formatUUIDFromBytes (d1 ++ (d2 ++ (d3 ++ (d4 ++ d5)))) =
      String.mk (hexEncodeList d1 ++ '-' :: (hexEncodeList d2 ++ '-' ::
        (hexEncodeList d3 ++ '-' :: (hexEncodeList d4 ++ '-' :: hexEncodeList d5)))) := by
  have t4 : (d1 ++ (d2 ++ (d3 ++ (d4 ++ d5)))).take 4 = d1 := List.take_left' h1
  have r4 : (d1 ++ (d2 ++ (d3 ++ (d4 ++ d5)))).drop 4 = d2 ++ (d3 ++ (d4 ++ d5)) :=
    List.drop_left' h1
  have r6 : (d1 ++ (d2 ++ (d3 ++ (d4 ++ d5)))).drop 6 = d3 ++ (d4 ++ d5) := by
    rw [show d1 ++ (d2 ++ (d3 ++ (d4 ++ d5))) = (d1 ++ d2) ++ (d3 ++ (d4 ++ d5)) by
      simp [List.append_assoc]]
    exact List.drop_left' (by simp [h1, h2])
  have r8 : (d1 ++ (d2 ++ (d3 ++ (d4 ++ d5)))).drop 8 = d4 ++ d5 := by
    rw [show d1 ++ (d2 ++ (d3 ++ (d4 ++ d5))) = (d1 ++ d2 ++ d3) ++ (d4 ++ d5) by
      simp [List.append_assoc]]
    exact List.drop_left' (by simp [h1, h2, h3])
  have r10 : (d1 ++ (d2 ++ (d3 ++ (d4 ++ d5)))).drop 10 = d5 := by
    rw [show d1 ++ (d2 ++ (d3 ++ (d4 ++ d5))) = (d1 ++ d2 ++ d3 ++ d4) ++ d5 by
      simp [List.append_assoc]]
    exact List.drop_left' (by simp [h1, h2, h3, h4])
  unfold formatUUIDFromBytes sprintfHex padZeros
  rw [t4, r4, r6, r8, r10]
  rw [List.take_left' h2, List.take_left' h3, List.take_left' h4]
  rw [hexEncodeList_length, hexEncodeList_length, hexEncodeList_length,
    hexEncodeList_length, hexEncodeList_length, h1, h2, h3, h4, h5]
  simp

/-! ## Valid UUID strings -/

/-- The hexadecimal digit characters of either case, as a UUID may use. -/
def uuidHexChars : List Char := "0123456789abcdefABCDEF".data

/-- Stated from the specification's words (for claim C2), not from the
code: a valid 36-character hyphenated UUID string — five dash-separated
groups of 8, 4, 4, 4 and 12 hexadecimal digits of either case. -/
def IsValidUUIDStringSpec (u : String) : Prop :=
  ∃ g1 g2 g3 g4 g5 : List Char,
    g1.length = 8 ∧ g2.length = 4 ∧ g3.length = 4 ∧ g4.length = 4 ∧ g5.length = 12 ∧
    (∀ x ∈ g1 ++ g2 ++ g3 ++ g4 ++ g5, x ∈ uuidHexChars) ∧
    u.data = g1 ++ '-' :: (g2 ++ '-' :: (g3 ++ '-' :: (g4 ++ '-' :: g5)))

/-- The lower-case valid UUID strings: the subset on which the round
trip holds. -/
def IsLowerUUIDString (u : String) : Prop :=
  ∃ g1 g2 g3 g4 g5 : List Char,
    g1.length = 8 ∧ g2.length = 4 ∧ g3.length = 4 ∧ g4.length = 4 ∧ g5.length = 12 ∧
    (∀ x ∈ g1 ++ g2 ++ g3 ++ g4 ++ g5, x ∈ lowerHexChars) ∧
    u.data = g1 ++ '-' :: (g2 ++ '-' :: (g3 ++ '-' :: (g4 ++ '-' :: g5)))

theorem lowerHex_ne_dash : ∀ c ∈ lowerHexChars, (c != '-') = true := by decide

/-- Filtering dashes out of a hex group followed by a dash. -/
theorem filter_dash_group (g t : List Char) (hg : ∀ x ∈ g, x ∈ lowerHexChars) :
    (g ++ '-' :: t).filter (fun c => c != '-') = g ++ t.filter (fun c => c != '-') := by
  rw [List.filter_append]
  congr 1
  exact List.filter_eq_self.mpr (fun a ha => lowerHex_ne_dash a (hg a ha))

/-! ## Claim C2 -/

/-- C2 as stated is false: the round trip re-emits the hexadecimal
digits in lower case, so a valid UUID string written with upper-case
digits comes back changed.  `"AAAAAAAA-AAAA-AAAA-AAAA-AAAAAAAAAAAA"` is a
valid 36-character hyphenated UUID string, yet decoding its encoding
does not return it (it returns the lower-case spelling). -/
theorem c2_counterexample :
    IsValidUUIDStringSpec "AAAAAAAA-AAAA-AAAA-AAAA-AAAAAAAAAAAA" ∧
    GetStringUUidFromBsonId (GetBsonIdFromUUId "AAAAAAAA-AAAA-AAAA-AAAA-AAAAAAAAAAAA") ≠
      ("AAAAAAAA-AAAA-AAAA-AAAA-AAAAAAAAAAAA", none) := by
  constructor
  · exact ⟨"AAAAAAAA".data, "AAAA".data, "AAAA".data, "AAAA".data,
      "AAAAAAAAAAAA".data, by decide⟩
  · decide

/-- C2 amended — for every valid **lower-case** 36-character hyphenated
UUID string `u`, decoding the encoding round-trips:
`GetStringUUidFromBsonId (GetBsonIdFromUUId u)` returns `u` with no
error. -/
theorem c2_roundtrip_lowercase (u : String) (h : IsLowerUUIDString u) :
    GetStringUUidFromBsonId (GetBsonIdFromUUId u) = (u, none) := by
  obtain ⟨g1, g2, g3, g4, g5, hl1, hl2, hl3, hl4, hl5, hmem, hdata⟩ := h
  have hm1 : ∀ x ∈ g1, x ∈ lowerHexChars := fun x hx => hmem x (by simp [hx])
  have hm2 : ∀ x ∈ g2, x ∈ lowerHexChars := fun x hx => hmem x (by simp [hx])
  have hm3 : ∀ x ∈ g3, x ∈ lowerHexChars := fun x hx => hmem x (by simp [hx])
  have hm4 : ∀ x ∈ g4, x ∈ lowerHexChars := fun x hx => hmem x (by simp [hx])
  have hm5 : ∀ x ∈ g5, x ∈ lowerHexChars := fun x hx => hmem x (by simp [hx])
  -- the dash-free form of u is the 32 hex digits
  have hfilter : u.data.filter (fun c => c != '-') = g1 ++ (g2 ++ (g3 ++ (g4 ++ g5))) := by
    rw [hdata, filter_dash_group g1 _ hm1, filter_dash_group g2 _ hm2,
      filter_dash_group g3 _ hm3, filter_dash_group g4 _ hm4,
      List.filter_eq_self.mpr (fun a ha => lowerHex_ne_dash a (hm5 a ha))]
  -- hex-decode the 32 digits into 16 bytes
  obtain ⟨bs, hdec, henc, hblen, hb256⟩ :=
    hexDecode_encode (g1 ++ (g2 ++ (g3 ++ (g4 ++ g5))))
      (by
        intro c hc
        apply hmem c
        simp only [List.mem_append] at hc ⊢
        tauto)
      (by simp [hl1, hl2, hl3, hl4, hl5])
  have hlen16 : bs.length = 16 := by
    have : (g1 ++ (g2 ++ (g3 ++ (g4 ++ g5)))).length = 32 := by
      simp [hl1, hl2, hl3, hl4, hl5]
    omega
  -- the encoder's output
  have hbson : GetBsonIdFromUUId u = "BinData(0, '" ++ String.mk (base64Encode bs) ++ "')" := by
    unfold GetBsonIdFromUUId
    rw [hfilter]
    simp [hdec]
  rw [hbson]
  -- the decoder's view of that string
  have hdata2 : ("BinData(0, '" ++ String.mk (base64Encode bs) ++ "')").data =
      binDataPre ++ (base64Encode bs ++ binDataSuf) := by
    rw [String.data_append, String.data_append]
    rfl
  have hpre : binDataPre.isPrefixOf
      ("BinData(0, '" ++ String.mk (base64Encode bs) ++ "')").data = true := by
    rw [hdata2]
    exact isPrefixOf_append_self _ _
  have hsuf : binDataSuf.isSuffixOf
      ("BinData(0, '" ++ String.mk (base64Encode bs) ++ "')").data = true := by
    rw [hdata2, ← List.append_assoc]
    exact isSuffixOf_append_self _ _
  have htrim : goTrimSuf (goTrimPre
      ("BinData(0, '" ++ String.mk (base64Encode bs) ++ "')").data binDataPre) binDataSuf =
      base64Encode bs := by
    rw [hdata2, goTrimPre_append, goTrimSuf_append]
  unfold GetStringUUidFromBsonId
  rw [if_neg (by rw [hpre, hsuf]; simp)]
  simp only [htrim, base64DecodeGo_encode bs hb256]
  rw [if_neg (by omega)]
  -- the formatted bytes are the original string
  obtain ⟨d1, r1, hbs1, hd1, hr1, hlen1⟩ := hexEncode_split bs g1 _ henc (by simp [hl1])
  obtain ⟨d2, r2, hbs2, hd2, hr2, hlen2⟩ := hexEncode_split r1 g2 _ hr1 (by simp [hl2])
  obtain ⟨d3, r3, hbs3, hd3, hr3, hlen3⟩ := hexEncode_split r2 g3 _ hr2 (by simp [hl3])
  obtain ⟨d4, d5, hbs4, hd4, hd5, hlen4⟩ := hexEncode_split r3 g4 _ hr3 (by simp [hl4])
  have hbs : bs = d1 ++ (d2 ++ (d3 ++ (d4 ++ d5))) := by
    rw [hbs1, hbs2, hbs3, hbs4]
  have hlen5 : d5.length = 6 := by
    have := hexEncodeList_length d5
    rw [hd5, hl5] at this
    omega
  rw [hbs, formatUUID_of_groups d1 d2 d3 d4 d5 (by omega) (by omega) (by omega)
    (by omega) hlen5]
  rw [hd1, hd2, hd3, hd4, hd5, ← hdata]

theorem c2_roundtrip_lowercase_witness :
    IsLowerUUIDString "12345678-1234-5678-9abc-def012345678" ∧
    GetStringUUidFromBsonId (GetBsonIdFromUUId "12345678-1234-5678-9abc-def012345678") =
      ("12345678-1234-5678-9abc-def012345678", none) := by
  have hv : IsLowerUUIDString "12345678-1234-5678-9abc-def012345678" :=
    ⟨"12345678".data, "1234".data, "5678".data, "9abc".data, "def012345678".data, by decide⟩
  exact ⟨hv, c2_roundtrip_lowercase _ hv⟩

/-! ## The profiling pipeline

`RunProfiling`, `WriteProfileAndExport` and `GenerateGraph` perform
side effects only.  We model them as functions from an *environment* —
the outcomes of the external operations they invoke (temp-file creation,
`pprof` calls, the `go tool pprof` subprocess, file writes) — to the
list of observable events they perform, in program order.

Go control-flow facts reflected in the model:

* `require.NoError(tc.B, err)` on a failure calls `FailNow`, which stops
  the function via `runtime.Goexit`; deferred calls still run.  This is
  the `fatalFail` event followed only by the pending deferred events.
* `pprof.Lookup(profileType)` returns `nil` for a profile kind unknown
  to the runtime, and `(*Profile).WriteTo` on a `nil` receiver panics
  with a nil-pointer dereference.  Deferred calls run during unwinding
  and the panic then propagates to the caller, aborting it.
* `defer os.Remove(f.Name())` runs on every exit path — normal return,
  `FailNow`, and panic alike. -/

/-- One observable action of the profiling pipeline. -/
inductive PEvent where
  /-- Directory preparation for the output directory
  (`MakeDirIfNotExists` followed by `os.MkdirAll`, modelled in detail by
  the filesystem model below). -/
  | prepareDir (dir : String)
  /-- A successful `os.CreateTemp`. -/
  | createTemp (name : String)
  /-- An `os.Remove` of a temporary file (a deferred cleanup). -/
  | removeFile (name : String)
  /-- `pprof.StartCPUProfile` succeeded. -/
  | startCPU
  /-- `pprof.StopCPUProfile`. -/
  | stopCPU
  /-- The parallel workload (`tc.B.RunParallel` of `ExecuteHandler`). -/
  | runWorkload
  /-- A `GenerateGraph` invocation of the external tool. -/
  | toolInvoke (profilePath outputPath format : String)
  /-- A successful `os.WriteFile` of a rendered image. -/
  | fileWrite (path : String)
  /-- A `log.Printf` / `tc.B.Logf` message. -/
  | logMsg (msg : String)
  /-- `require.NoError(tc.B, …)` failed: the failure is reported to the
  host test mechanism and the current function stops. -/
  | fatalFail (msg : String)
  /-- A runtime panic (nil-pointer dereference). -/
  | panicked (msg : String)
  /-- Entry into `WriteProfileAndExport` for one profile kind, from the
  orchestrator's loop over `EnabledProfilingTypes`. -/
  | snapshotEnter (kind : String)
deriving DecidableEq

/-- Outcomes of the external operations of one profiling run. -/
structure ProfEnv where
  /-- `os.CreateTemp("", "cpu_profile_*.prof")` succeeds. -/
  cpuTempOk : Bool
  /-- The name the CPU temp file receives. -/
  cpuTempName : String
  /-- `pprof.StartCPUProfile` succeeds. -/
  cpuStartOk : Bool
  /-- `os.CreateTemp("", kind+".prof")` succeeds for a snapshot kind. -/
  snapTempOk : String → Bool
  /-- The name the snapshot temp file receives for a kind. -/
  snapTempName : String → String
  /-- `pprof.Lookup(kind)` returns a non-nil profile. -/
  lookupFound : String → Bool
  /-- `profile.WriteTo(file, 0)` returns no error for a kind. -/
  writeToOk : String → Bool
  /-- `exec.Command("go", "tool", "pprof", "-"+format, path).Output()`
  succeeds. -/
  toolOk : String → String → Bool
  /-- `os.WriteFile(outputPath, …)` succeeds. -/
  writeOk : String → Bool

/-- `GenerateGraph` from `helper.go`: run the external tool; on failure
log and return; then write the output file; on failure log and return;
then log success.  No file is written unless the tool succeeded. -/
def GenerateGraph (env : ProfEnv) (profilePath outputPath format : String) : List PEvent :=
  PEvent.toolInvoke profilePath outputPath format ::
    (if env.toolOk profilePath format then
      (if env.writeOk outputPath then
        [PEvent.fileWrite outputPath, PEvent.logMsg (format ++ " saved to " ++ outputPath)]
      else [PEvent.logMsg ("Failed to write " ++ format ++ " to " ++ outputPath)])
    else [PEvent.logMsg ("Failed to generate " ++ format ++ " for " ++ profilePath)])

/-- `WriteProfileAndExport(profileType, dir)` from `helper.go`.  Returns
the events it performs and whether it ended in a panic (the nil-`Lookup`
case).  In Go the function has no return value at all, so in every
non-panicking case control returns normally to the caller with no error
value. -/
def WriteProfileAndExport (env : ProfEnv) (formats : List String)
    (profileType dir : String) : List PEvent × Bool :=
  if formats.length = 0 then
    ([PEvent.logMsg ("Skipping " ++ profileType ++ " profile: no output formats selected")],
      false)
  else if env.snapTempOk profileType = false then
    ([PEvent.logMsg ("Failed to create temp file for " ++ profileType ++ " profile")], false)
  else if env.lookupFound profileType = false then
    -- pprof.Lookup is nil; calling WriteTo on it panics; the deferred
    -- Remove runs during unwinding, then the panic propagates.
    ([PEvent.createTemp (env.snapTempName profileType),
      PEvent.panicked "invalid memory address or nil pointer dereference",
      PEvent.removeFile (env.snapTempName profileType)], true)
  else if env.writeToOk profileType = false then
    ([PEvent.createTemp (env.snapTempName profileType),
      PEvent.logMsg ("Failed to write " ++ profileType ++ " profile"),
      PEvent.removeFile (env.snapTempName profileType)], false)
  else
    (PEvent.createTemp (env.snapTempName profileType) ::
      PEvent.logMsg (profileType ++ " profile written to temporary file") ::
      ((formats.map (fun format =>
          GenerateGraph env (env.snapTempName profileType)
            (dir ++ "/" ++ profileType ++ "." ++ format) format)).flatten ++
        [PEvent.removeFile (env.snapTempName profileType)]), false)

/-- The `for _, format := range ProfilingOutputFormats` loop exporting
the CPU profile in `RunProfiling`.  A format other than `"png"`/`"pdf"`
logs and makes `RunProfiling` return (second component `true`); the
formats before it have already been exported. -/
def cpuExportLoop (env : ProfEnv) (dir : String) : List String → List PEvent × Bool
  | [] => ([], false)
  | format :: rest =>
    if format ≠ "png" ∧ format ≠ "pdf" then
      ([PEvent.logMsg ("Invalid profiling output format: " ++ format)], true)
    else
      let evs := GenerateGraph env env.cpuTempName (dir ++ "/cpu." ++ format) format
      let tail := cpuExportLoop env dir rest
      (evs ++ tail.1, tail.2)

/-- The `for _, profile := range EnabledProfilingTypes` loop in
`RunProfiling`.  A panic inside `WriteProfileAndExport` propagates: the
remaining kinds are not visited. -/
def snapshotLoop (env : ProfEnv) (formats : List String) (dir : String) :
    List String → List PEvent × Bool
  | [] => ([], false)
  | kind :: rest =>
    let w := WriteProfileAndExport env formats kind dir
    if w.2 then (PEvent.snapshotEnter kind :: w.1, true)
    else
      let tail := snapshotLoop env formats dir rest
      (PEvent.snapshotEnter kind :: (w.1 ++ tail.1), tail.2)

/-- `RunProfiling` from `helper.go`, as the list of events it performs.
`formats` is the process-wide `ProfilingOutputFormats`, `kinds` is
`EnabledProfilingTypes`, and `profileDir` is `tc.GetProfileDir()`. -/
def RunProfiling (env : ProfEnv) (formats kinds : List String) (profileDir : String) :
    List PEvent :=
  if formats.length = 0 then []
  else
    PEvent.prepareDir profileDir ::
      (if env.cpuTempOk = false then
        [PEvent.fatalFail "Failed to create temp CPU profile file"]
      else
        PEvent.createTemp env.cpuTempName ::
          ((if env.cpuStartOk = false then
            [PEvent.fatalFail "Failed to start CPU profile"]
          else
            PEvent.startCPU :: PEvent.runWorkload :: PEvent.stopCPU ::
              (let cpu := cpuExportLoop env profileDir formats
               cpu.1 ++ (if cpu.2 then [] else (snapshotLoop env formats profileDir kinds).1))) ++
          [PEvent.removeFile env.cpuTempName]))

/-! ## Shape of the events each component emits -/

/-- The event constructors `GenerateGraph` can emit: tool invocation,
image write, log line. -/
def isGraphEvent : PEvent → Bool
  | PEvent.toolInvoke _ _ _ => true
  | PEvent.fileWrite _ => true
  | PEvent.logMsg _ => true
  | _ => false

/-- `GenerateGraph` only invokes the tool, writes the image and logs. -/
theorem generateGraph_events (env : ProfEnv) (p o f : String) :
    ∀ e ∈ GenerateGraph env p o f, isGraphEvent e = true := by
  intro e he
  unfold GenerateGraph at he
  split_ifs at he <;>
    simp only [List.mem_cons, List.not_mem_nil, or_false] at he <;>
    (rcases he with he | he | he) <;>
    (first
      | rfl
      | (subst he; rfl))

theorem count_zero_of_not_graph (l : List PEvent) (hl : ∀ e ∈ l, isGraphEvent e = true)
    (a : PEvent) (ha : isGraphEvent a = false) : l.count a = 0 :=
  List.count_eq_zero.mpr (fun hmem => by rw [hl a hmem] at ha; cases ha)

/-- Counting a non-export event over a per-format export loop. -/
theorem count_export_flatten (env : ProfEnv) (tmp : String)
    (path : String → String) (a : PEvent) (ha : isGraphEvent a = false) :
    ∀ formats : List String,
      ((formats.map (fun format => GenerateGraph env tmp (path format) format)).flatten).count
        a = 0
  | [] => rfl
  | f :: rest => by
    simp only [List.map_cons, List.flatten_cons, List.count_append,
      count_zero_of_not_graph _ (generateGraph_events env tmp (path f) f) a ha,
      count_export_flatten env tmp path a ha rest]

/-! ## Claim C4 -/

/-- C4 — with an empty `ProfilingOutputFormats`, `RunProfiling` returns
before doing anything at all (its event trace is empty: no directory, no
files, no export calls, for every configuration of enabled kinds), and
`WriteProfileAndExport` only logs the skip message and performs no file
or export action either. -/
theorem c4_empty_formats_noop (env : ProfEnv) (kinds : List String) (dir : String) :
    RunProfiling env [] kinds dir = [] ∧
    ∀ kind, WriteProfileAndExport env [] kind dir =
      ([PEvent.logMsg ("Skipping " ++ kind ++ " profile: no output formats selected")],
        false) :=
  ⟨rfl, fun _ => rfl⟩

/-! ## Claim C5 -/

theorem wpe_balanced (env : ProfEnv) (formats : List String) (kind dir name : String) :
    (WriteProfileAndExport env formats kind dir).1.count (PEvent.createTemp name) =
    (WriteProfileAndExport env formats kind dir).1.count (PEvent.removeFile name) := by
  have hc := count_export_flatten env (env.snapTempName kind)
    (fun format => dir ++ "/" ++ kind ++ "." ++ format) (PEvent.createTemp name) rfl formats
  have hr := count_export_flatten env (env.snapTempName kind)
    (fun format => dir ++ "/" ++ kind ++ "." ++ format) (PEvent.removeFile name) rfl formats
  unfold WriteProfileAndExport
  split_ifs with h1 h2 h3 h4 <;>
    simp [List.count_cons, List.count_append, hc, hr]

theorem snapshotLoop_balanced (env : ProfEnv) (formats : List String) (dir name : String) :
    ∀ kinds : List String,
      (snapshotLoop env formats dir kinds).1.count (PEvent.createTemp name) =
      (snapshotLoop env formats dir kinds).1.count (PEvent.removeFile name)
  | [] => rfl
  | kind :: rest => by
    have hw := wpe_balanced env formats kind dir name
    have ih := snapshotLoop_balanced env formats dir name rest
    unfold snapshotLoop
    by_cases hp : (WriteProfileAndExport env formats kind dir).2 <;>
      simp [hp, List.count_cons, List.count_append, hw, ih]

theorem cpuExportLoop_no_temp (env : ProfEnv) (dir name : String) :
    ∀ formats : List String,
      (cpuExportLoop env dir formats).1.count (PEvent.createTemp name) = 0 ∧
      (cpuExportLoop env dir formats).1.count (PEvent.removeFile name) = 0
  | [] => ⟨rfl, rfl⟩
  | f :: rest => by
    have ih := cpuExportLoop_no_temp env dir name rest
    have hc := count_zero_of_not_graph _
      (generateGraph_events env env.cpuTempName (dir ++ "/cpu." ++ f) f)
      (PEvent.createTemp name) rfl
    have hr := count_zero_of_not_graph _
      (generateGraph_events env env.cpuTempName (dir ++ "/cpu." ++ f) f)
      (PEvent.removeFile name) rfl
    unfold cpuExportLoop
    split_ifs with h <;>
      simp [List.count_cons, List.count_append, ih.1, ih.2, hc, hr]

/-- C5 — in every run, under every outcome of the external operations,
each temporary profile artifact name is removed exactly as many times as
it is created: the CPU temp file and every snapshot temp file have
exactly one deferred delete per successful creation, on normal returns,
on `FailNow`, and on the nil-`Lookup` panic path alike. -/
theorem c5_temp_files_balanced (env : ProfEnv) (formats kinds : List String)
    (dir name : String) :
    (RunProfiling env formats kinds dir).count (PEvent.createTemp name) =
    (RunProfiling env formats kinds dir).count (PEvent.removeFile name) := by
  unfold RunProfiling
  have hcpu := cpuExportLoop_no_temp env dir name formats
  have hsnap := snapshotLoop_balanced env formats dir name kinds
  split_ifs with h1 h2 h3 <;>
    [skip; skip; skip;
      by_cases hab : (cpuExportLoop env dir formats).2] <;>
    simp [List.count_cons, List.count_append, hcpu.1, hcpu.2, hsnap, *]

/-! ## Claim C8 -/

/-- C8 — with a non-empty format list, a failure to create the CPU temp
file, or to start CPU profiling, is fatal: `require.NoError(tc.B, …)`
reports it to the host test-failure mechanism and the run stops at that
point — the trace shows no workload execution, no export call and no
snapshot capture, only the already-deferred cleanup.  Snapshot-profile
failures, by contrast, never produce a `fatalFail` (see C6). -/
theorem c8_cpu_failure_fatal (env : ProfEnv) (formats kinds : List String) (dir : String)
    (hf : formats.length ≠ 0) :
    (env.cpuTempOk = false →
      RunProfiling env formats kinds dir =
        [PEvent.prepareDir dir, PEvent.fatalFail "Failed to create temp CPU profile file"]) ∧
    (env.cpuTempOk = true → env.cpuStartOk = false →
      RunProfiling env formats kinds dir =
        [PEvent.prepareDir dir, PEvent.createTemp env.cpuTempName,
         PEvent.fatalFail "Failed to start CPU profile",
         PEvent.removeFile env.cpuTempName]) := by
  constructor
  · intro h1
    simp [RunProfiling, hf, h1]
  · intro h1 h2
    simp [RunProfiling, hf, h1, h2]

/-- An environment in which every external operation succeeds, with
fixed temp-file names. -/
def envAllOk : ProfEnv where
  cpuTempOk := true
  cpuTempName := "cpu_profile_1.prof"
  cpuStartOk := true
  snapTempOk := fun _ => true
  snapTempName := fun kind => kind ++ ".prof"
  lookupFound := fun _ => true
  writeToOk := fun _ => true
  toolOk := fun _ _ => true
  writeOk := fun _ => true

theorem c8_cpu_failure_fatal_witness :
    (["png"] : List String).length ≠ 0 ∧
    RunProfiling { envAllOk with cpuStartOk := false } ["png"] ["heap"] "profiles/f/t" =
      [PEvent.prepareDir "profiles/f/t", PEvent.createTemp "cpu_profile_1.prof",
       PEvent.fatalFail "Failed to start CPU profile",
       PEvent.removeFile "cpu_profile_1.prof"] :=
  ⟨by decide,
    (c8_cpu_failure_fatal { envAllOk with cpuStartOk := false } ["png"] ["heap"]
      "profiles/f/t" (by decide)).2 rfl rfl⟩

/-! ## Claim C1 -/

/-- C1 as stated is false: with formats `["gif", "png"]` and kind
`"heap"` enabled, and every external operation succeeding, `RunProfiling`
logs the invalid-format message but then **returns**: the remaining valid
format `"png"` is never exported (no tool invocation for it) and the
snapshot kind `"heap"` is never captured — the run does not continue. -/
theorem c1_counterexample :
    RunProfiling envAllOk ["gif", "png"] ["heap"] "dir" =
      [PEvent.prepareDir "dir", PEvent.createTemp "cpu_profile_1.prof", PEvent.startCPU,
       PEvent.runWorkload, PEvent.stopCPU,
       PEvent.logMsg "Invalid profiling output format: gif",
       PEvent.removeFile "cpu_profile_1.prof"] ∧
    (RunProfiling envAllOk ["gif", "png"] ["heap"] "dir").count
        (PEvent.toolInvoke "cpu_profile_1.prof" "dir/cpu.png" "png") = 0 ∧
    (RunProfiling envAllOk ["gif", "png"] ["heap"] "dir").count
        (PEvent.snapshotEnter "heap") = 0 := by
  refine ⟨by decide, by decide, by decide⟩

/-- The CPU export loop on a format list whose first invalid entry is
`bad`: the valid formats before it are exported, the invalid one is
logged, and the loop reports the early return. -/
theorem cpuExportLoop_invalid (env : ProfEnv) (dir : String) :
    ∀ (preFs : List String) (bad : String) (postFs : List String),
      (∀ g ∈ preFs, g = "png" ∨ g = "pdf") → bad ≠ "png" ∧ bad ≠ "pdf" →
      cpuExportLoop env dir (preFs ++ bad :: postFs) =
        ((preFs.map (fun format =>
            GenerateGraph env env.cpuTempName (dir ++ "/cpu." ++ format) format)).flatten ++
          [PEvent.logMsg ("Invalid profiling output format: " ++ bad)], true)
  | [], bad, postFs, _, hbad => by
    simp [cpuExportLoop, hbad]
  | g :: rest, bad, postFs, hpre, hbad => by
    have hg := hpre g (by simp)
    have hgv : ¬(g ≠ "png" ∧ g ≠ "pdf") := by tauto
    rw [List.cons_append]
    unfold cpuExportLoop
    rw [if_neg hgv,
      cpuExportLoop_invalid env dir rest bad postFs (fun x hx => hpre x (by simp [hx])) hbad]
    simp [List.append_assoc]

/-- C1 amended — when the configured format list contains an entry other
than `"png"`/`"pdf"`, `RunProfiling` exports the CPU profile for the
valid formats that precede the first invalid entry, logs the
invalid-format failure and writes no output for it, but then returns
early: the formats after it are not exported and **no** snapshot profile
kind is processed.  (The deferred removal of the CPU temp file still
runs.) -/
theorem c1_invalid_format_aborts (env : ProfEnv) (dir : String) (kinds : List String)
    (preFs : List String) (bad : String) (postFs : List String)
    (hpre : ∀ g ∈ preFs, g = "png" ∨ g = "pdf")
    (hbad : bad ≠ "png" ∧ bad ≠ "pdf")
    (hco : env.cpuTempOk = true) (hcs : env.cpuStartOk = true) :
    RunProfiling env (preFs ++ bad :: postFs) kinds dir =
      PEvent.prepareDir dir :: PEvent.createTemp env.cpuTempName ::
        PEvent.startCPU :: PEvent.runWorkload :: PEvent.stopCPU ::
        ((preFs.map (fun format =>
            GenerateGraph env env.cpuTempName (dir ++ "/cpu." ++ format) format)).flatten ++
          [PEvent.logMsg ("Invalid profiling output format: " ++ bad),
           PEvent.removeFile env.cpuTempName]) := by
  have hloop := cpuExportLoop_invalid env dir preFs bad postFs hpre hbad
  unfold RunProfiling
  rw [if_neg (by simp), if_neg (by simp [hco]), if_neg (by simp [hcs])]
  simp [hloop]

theorem c1_invalid_format_aborts_witness :
    RunProfiling envAllOk (["png"] ++ "svg" :: ["pdf"]) ["heap"] "dir" =
      PEvent.prepareDir "dir" :: PEvent.createTemp "cpu_profile_1.prof" ::
        PEvent.startCPU :: PEvent.runWorkload :: PEvent.stopCPU ::
        (((["png"] : List String).map (fun format =>
            GenerateGraph envAllOk "cpu_profile_1.prof" ("dir" ++ "/cpu." ++ format)
              format)).flatten ++
          [PEvent.logMsg ("Invalid profiling output format: " ++ "svg"),
           PEvent.removeFile "cpu_profile_1.prof"]) :=
  c1_invalid_format_aborts envAllOk "dir" ["heap"] ["png"] "svg" ["pdf"]
    (by decide) (by decide) rfl rfl

/-! ## Claim C6 -/

/-- C6 as stated is false for the unknown-kind disjunct: with kinds
`["mystery", "heap"]` and `"mystery"` unknown to the runtime,
`pprof.Lookup("mystery")` is `nil`, `WriteTo` panics, and the
orchestrator never reaches the remaining kind `"heap"` — the failure is
not a logged skip and the remaining kinds are not processed. -/
theorem c6_counterexample :
    (RunProfiling { envAllOk with lookupFound := fun kind => kind != "mystery" }
        ["png"] ["mystery", "heap"] "dir").count
      (PEvent.panicked "invalid memory address or nil pointer dereference") = 1 ∧
    (RunProfiling { envAllOk with lookupFound := fun kind => kind != "mystery" }
        ["png"] ["mystery", "heap"] "dir").count (PEvent.snapshotEnter "heap") = 0 := by
  decide

theorem wpe_no_panic (env : ProfEnv) (formats : List String) (kind dir : String)
    (h : env.snapTempOk kind = false ∨ env.lookupFound kind = true) :
    (WriteProfileAndExport env formats kind dir).2 = false := by
  unfold WriteProfileAndExport
  split_ifs with h1 h2 h3 h4 <;> simp_all

theorem wpe_no_enter (env : ProfEnv) (formats : List String) (kind dir name : String) :
    (WriteProfileAndExport env formats kind dir).1.count (PEvent.snapshotEnter name) = 0 := by
  have hf := count_export_flatten env (env.snapTempName kind)
    (fun format => dir ++ "/" ++ kind ++ "." ++ format) (PEvent.snapshotEnter name) rfl
    formats
  unfold WriteProfileAndExport
  split_ifs with h1 h2 h3 h4 <;> simp [List.count_cons, List.count_append, hf]

theorem snapshotLoop_enter_count (env : ProfEnv) (formats : List String) (dir : String) :
    ∀ kinds : List String,
      (∀ k ∈ kinds, env.snapTempOk k = false ∨ env.lookupFound k = true) →
      ∀ kind, (snapshotLoop env formats dir kinds).1.count (PEvent.snapshotEnter kind) =
        kinds.count kind
  | [], _, kind => rfl
  | k :: rest, hk, kind => by
    have hpanic := wpe_no_panic env formats k dir (hk k (by simp))
    have ih := snapshotLoop_enter_count env formats dir rest
      (fun x hx => hk x (by simp [hx])) kind
    unfold snapshotLoop
    simp only [hpanic]
    simp [List.count_cons, List.count_append, wpe_no_enter, ih]

/-- C6 amended — for the failure conditions that actually occur in the
shipped configuration (temp-file creation failure, or a profile-write
error on a kind the runtime knows), `WriteProfileAndExport` logs and
returns normally without propagating anything, and the orchestrator
still enters `WriteProfileAndExport` once per enabled kind, whatever the
per-kind failures; a kind **unknown** to the runtime, however, panics on
the nil `pprof.Lookup` result (see the counterexample). -/
theorem c6_capture_failures_logged (env : ProfEnv) (formats kinds : List String)
    (dir : String)
    (hf : formats.length ≠ 0)
    (hvalid : ∀ f ∈ formats, f = "png" ∨ f = "pdf")
    (hct : env.cpuTempOk = true) (hcs : env.cpuStartOk = true)
    (hknown : ∀ k ∈ kinds, env.snapTempOk k = false ∨ env.lookupFound k = true) :
    (∀ kind, env.snapTempOk kind = false →
      WriteProfileAndExport env formats kind dir =
        ([PEvent.logMsg ("Failed to create temp file for " ++ kind ++ " profile")],
          false)) ∧
    (∀ kind, env.snapTempOk kind = true → env.lookupFound kind = true →
      env.writeToOk kind = false →
      WriteProfileAndExport env formats kind dir =
        ([PEvent.createTemp (env.snapTempName kind),
          PEvent.logMsg ("Failed to write " ++ kind ++ " profile"),
          PEvent.removeFile (env.snapTempName kind)], false)) ∧
    ∀ kind, (RunProfiling env formats kinds dir).count (PEvent.snapshotEnter kind) =
      kinds.count kind := by
  refine ⟨fun kind hk => ?_, fun kind h1 h2 h3 => ?_, fun kind => ?_⟩
  · unfold WriteProfileAndExport
    rw [if_neg hf, if_pos hk]
  · unfold WriteProfileAndExport
    rw [if_neg hf, if_neg (by simp [h1]), if_neg (by simp [h2]), if_pos h3]
  · have hok : ∀ format ∈ formats, ¬(format ≠ "png" ∧ format ≠ "pdf") := by
      intro f hfm
      have := hvalid f hfm
      tauto
    have hnoabort : ∀ fs : List String, (∀ f ∈ fs, ¬(f ≠ "png" ∧ f ≠ "pdf")) →
        (cpuExportLoop env dir fs).2 = false ∧
        (cpuExportLoop env dir fs).1.count (PEvent.snapshotEnter kind) = 0 := by
      intro fs
      induction fs with
      | nil => intro _; exact ⟨rfl, rfl⟩
      | cons f rest ihf =>
        intro hfs
        have hcnt := count_zero_of_not_graph _
          (generateGraph_events env env.cpuTempName (dir ++ "/cpu." ++ f) f)
          (PEvent.snapshotEnter kind) rfl
        have ih := ihf (fun x hx => hfs x (by simp [hx]))
        unfold cpuExportLoop
        rw [if_neg (hfs f (by simp))]
        simp [List.count_append, hcnt, ih.1, ih.2]
    have hcpu := hnoabort formats hok
    have hsnap := snapshotLoop_enter_count env formats dir kinds hknown kind
    unfold RunProfiling
    rw [if_neg hf, if_neg (by simp [hct]), if_neg (by simp [hcs])]
    simp [List.count_cons, List.count_append, hcpu.1, hcpu.2, hsnap]

theorem c6_capture_failures_logged_witness :
    WriteProfileAndExport { envAllOk with writeToOk := fun _ => false } ["png"]
        "heap" "dir" =
      ([PEvent.createTemp "heap.prof",
        PEvent.logMsg "Failed to write heap profile",
        PEvent.removeFile "heap.prof"], false) ∧
    (RunProfiling { envAllOk with writeToOk := fun _ => false } ["png"]
        ["heap", "goroutine"] "dir").count (PEvent.snapshotEnter "heap") =
      (["heap", "goroutine"] : List String).count "heap" :=
  ⟨(c6_capture_failures_logged { envAllOk with writeToOk := fun _ => false } ["png"]
      ["heap", "goroutine"] "dir" (by decide) (by decide) rfl rfl
      (fun k _ => Or.inr rfl)).2.1 "heap" rfl rfl rfl,
   (c6_capture_failures_logged { envAllOk with writeToOk := fun _ => false } ["png"]
      ["heap", "goroutine"] "dir" (by decide) (by decide) rfl rfl
      (fun k _ => Or.inr rfl)).2.2 "heap"⟩

/-! ## The assertion runner

`RunSingle` executes the handler, unmarshals the body into
`map[string]Resp`, extracts the `"response"` key and compares its code
with the expected code.  The handler, `encoding/json` and the `require`
package are external collaborators; the embedding takes the result of
unmarshalling the body (an error, or the key/value pairs of the decoded
map) and mirrors the sequence of `require` calls, which stop the test at
the first failure. -/

/-- The `Resp` struct.  The `data` and `meta_data` fields hold arbitrary
JSON payloads that the assertion logic never inspects; they are carried
as opaque optional text. -/
structure Resp where
  code : Int
  api_status : Int
  message : String
  data : Option String := none
  meta_data : Option String := none
deriving DecidableEq

/-- How a `RunSingle` call ends, one constructor per `require` site,
carrying the message the failing `require` reports. -/
inductive AssertionOutcome where
  | pass
  | failParse (msg : String)
  | failMissingKey (msg : String)
  | failWrongCode (expected actual : Int)
deriving DecidableEq

/-- `RunSingle` from `helper.go`, as a function of the unmarshalling
result of the recorded response body and of the expected code. -/
def RunSingle (parsed : Except String (List (String × Resp))) (expectedCode : Int) :
    AssertionOutcome :=
  match parsed with
  | Except.error _ => AssertionOutcome.failParse "Could not unmarshal JSON response"
  | Except.ok outer =>
    match outer.lookup "response" with
    | none => AssertionOutcome.failMissingKey "Missing 'response' key in JSON"
    | some resp =>
      if resp.code = expectedCode then AssertionOutcome.pass
      else AssertionOutcome.failWrongCode expectedCode resp.code

/-! ## Claim C3 -/

/-- C3 — in assertion mode, for a body that unmarshals to a map with a
`"response"` object of code `X`, the test passes exactly when `X` equals
the expected code (otherwise `require.Equal` fails); a body that does
not unmarshal as JSON of that shape fails with the parse-error message
`"Could not unmarshal JSON response"`; and a body that unmarshals but
has no `"response"` key fails with the `"Missing 'response' key in
JSON"` message. -/
theorem c3_assertion_mode (parsed : Except String (List (String × Resp)))
    (expectedCode : Int) :
    (∀ outer resp, parsed = Except.ok outer → outer.lookup "response" = some resp →
      (RunSingle parsed expectedCode = AssertionOutcome.pass ↔
        resp.code = expectedCode)) ∧
    (∀ e, parsed = Except.error e →
      RunSingle parsed expectedCode =
        AssertionOutcome.failParse "Could not unmarshal JSON response") ∧
    (∀ outer, parsed = Except.ok outer → outer.lookup "response" = none →
      RunSingle parsed expectedCode =
        AssertionOutcome.failMissingKey "Missing 'response' key in JSON") := by
  refine ⟨fun outer resp hp hl => ?_, fun e hp => ?_, fun outer hp hl => ?_⟩
  · subst hp
    by_cases hc : resp.code = expectedCode <;> simp [RunSingle, hl, hc]
  · subst hp
    rfl
  · subst hp
    simp [RunSingle, hl]

theorem c3_assertion_mode_witness :
    RunSingle (Except.ok [("response",
        { code := 200, api_status := 1, message := "ok" })]) 200 =
      AssertionOutcome.pass ∧
    RunSingle (Except.ok [("response",
        { code := 404, api_status := 0, message := "no" })]) 200 ≠
      AssertionOutcome.pass ∧
    RunSingle (Except.error "invalid character") 200 =
      AssertionOutcome.failParse "Could not unmarshal JSON response" :=
  ⟨((c3_assertion_mode (Except.ok [("response",
        { code := 200, api_status := 1, message := "ok" })]) 200).1
      [("response", { code := 200, api_status := 1, message := "ok" })]
      { code := 200, api_status := 1, message := "ok" } rfl (by decide)).mpr rfl,
   fun h => by
      have := ((c3_assertion_mode (Except.ok [("response",
          { code := 404, api_status := 0, message := "no" })]) 200).1
        [("response", { code := 404, api_status := 0, message := "no" })]
        { code := 404, api_status := 0, message := "no" } rfl (by decide)).mp h
      simp at this,
   (c3_assertion_mode (Except.error "invalid character") 200).2.1 "invalid character" rfl⟩

/-! ## The filesystem model for directory preparation

`MakeDirIfNotExists` checks `os.Stat` and calls `os.MkdirAll` with mode
`0755` when the path does not exist; `RunProfiling` then calls
`os.MkdirAll` again with `os.ModePerm` and ignores its error (the
`require` call in the source is commented out).  `os.MkdirAll` on an
existing directory succeeds without touching its permissions; on an
existing non-directory it fails.  The model keeps one entry per path
(parent directories are immaterial for the claim: both calls name the
same path). -/

/-- What a path holds. -/
inductive FsEntry where
  | dir (perm : Nat)
  | file
deriving DecidableEq

/-- A filesystem: each path is absent or holds an entry. -/
def FileSys := String → Option FsEntry

/-- `os.MkdirAll`: succeeds and leaves the filesystem unchanged when the
path is already a directory (permissions untouched); fails when the path
holds a non-directory; creates a directory with the given permissions
when the path is absent. -/
def mkdirAll (fs : FileSys) (path : String) (perm : Nat) : FileSys × Bool :=
  match fs path with
  | some (FsEntry.dir _) => (fs, true)
  | some FsEntry.file => (fs, false)
  | none => (fun q => if q = path then some (FsEntry.dir perm) else fs q, true)

/-- `MakeDirIfNotExists` from `helper.go`: create (mode `0755`) only
when `os.Stat` reports the path absent; the `MkdirAll` error is
ignored. -/
def MakeDirIfNotExists (fs : FileSys) (path : String) : FileSys :=
  if (fs path).isSome = false then (mkdirAll fs path 0o755).1 else fs

/-- The directory preparation `RunProfiling` performs:
`MakeDirIfNotExists(profileDir)` then `os.MkdirAll(profileDir,
os.ModePerm)`, whose error is ignored; the second component reports
whether that second call succeeded. -/
def prepareProfileDir (fs : FileSys) (path : String) : FileSys × Bool :=
  mkdirAll (MakeDirIfNotExists fs path) path 0o777

/-! ## Claim C9 -/

/-- C9 — directory preparation is idempotent: when the path is not
occupied by a non-directory, running `MakeDirIfNotExists` followed by
`MkdirAll` a second time succeeds, changes nothing, and leaves the
directory present with the same permissions it had after the first
invocation. -/
theorem c9_mkdir_idempotent (fs : FileSys) (path : String)
    (h : fs path ≠ some FsEntry.file) :
    (prepareProfileDir (prepareProfileDir fs path).1 path).2 = true ∧
    (prepareProfileDir (prepareProfileDir fs path).1 path).1 =
      (prepareProfileDir fs path).1 ∧
    ∃ perm, (prepareProfileDir fs path).1 path = some (FsEntry.dir perm) ∧
      (prepareProfileDir (prepareProfileDir fs path).1 path).1 path =
        some (FsEntry.dir perm) := by
  rcases hp : fs path with _ | entry
  · -- absent: the first run creates the directory with mode 0755
    have h1 : MakeDirIfNotExists fs path =
        fun q => if q = path then some (FsEntry.dir 0o755) else fs q := by
      unfold MakeDirIfNotExists mkdirAll
      rw [hp]
      simp
    have h2 : prepareProfileDir fs path =
        ((fun q => if q = path then some (FsEntry.dir 0o755) else fs q), true) := by
      unfold prepareProfileDir
      rw [h1]
      unfold mkdirAll
      simp
    have h3 : (prepareProfileDir fs path).1 path = some (FsEntry.dir 0o755) := by
      rw [h2]
      simp
    have h4 : MakeDirIfNotExists (prepareProfileDir fs path).1 path =
        (prepareProfileDir fs path).1 := by
      unfold MakeDirIfNotExists
      rw [h3]
      simp
    have h5 : prepareProfileDir (prepareProfileDir fs path).1 path =
        ((prepareProfileDir fs path).1, true) := by
      show mkdirAll (MakeDirIfNotExists (prepareProfileDir fs path).1 path) path 0o777 =
        ((prepareProfileDir fs path).1, true)
      rw [h4]
      unfold mkdirAll
      rw [h3]
    refine ⟨by rw [h5], by rw [h5], 0o755, h3, by rw [h5]; exact h3⟩
  · rcases entry with perm | _
    · -- already a directory: both runs change nothing
      have h1 : MakeDirIfNotExists fs path = fs := by
        unfold MakeDirIfNotExists
        rw [hp]
        simp
      have h2 : prepareProfileDir fs path = (fs, true) := by
        unfold prepareProfileDir
        rw [h1]
        unfold mkdirAll
        rw [hp]
      have h5 : prepareProfileDir (prepareProfileDir fs path).1 path = (fs, true) := by
        rw [h2]
        exact h2
      refine ⟨by rw [h5], by rw [h5, h2], perm, ?_, ?_⟩
      · rw [h2]
        exact hp
      · rw [h5]
        exact hp
    · exact absurd hp h

theorem c9_mkdir_idempotent_witness :
    ((fun _ => none : FileSys) "profiles/f/t" ≠ some FsEntry.file) ∧
    (prepareProfileDir (prepareProfileDir (fun _ => none) "profiles/f/t").1
        "profiles/f/t").2 = true ∧
    (prepareProfileDir (prepareProfileDir (fun _ => none) "profiles/f/t").1
        "profiles/f/t").1 "profiles/f/t" =
      (prepareProfileDir (fun _ => none) "profiles/f/t").1 "profiles/f/t" := by
  have h := c9_mkdir_idempotent (fun _ => none) "profiles/f/t" (by simp)
  refine ⟨by simp, h.1, ?_⟩
  obtain ⟨perm, hp1, hp2⟩ := h.2.2
  rw [hp1, hp2]

end Pariksha
